import Mathlib

/-!
Shallow embedding of the country-information service
(`app/services.py`, `app/models.py`).

Conventions of the embedding:
* Python floats are modelled as exact rationals `ℚ` (the arithmetic the
  spec describes is real arithmetic; no claim depends on rounding).
* Timestamps (`datetime.now(UTC)`) are opaque `Nat` values passed in
  explicitly.
* `random.uniform(1000, 2000)` draws are passed in explicitly as a `ℚ`
  argument `u`; the mathematical semantics of `uniform(a, b)` is
  `a + (b - a) * random()` with `random() ∈ [0, 1)`, i.e. `u ∈ [1000, 2000)`.
* Python dicts from the external APIs become structures with `Option`
  fields (`dict.get` returns `None` for a missing key); the exchange-rate
  dict becomes an association list queried with `List.lookup`.
* A SQLAlchemy session + database becomes an explicit `DB` value; a
  function that can raise becomes `Except String`.
* `result.scalar_one_or_none()` returns `none` on zero rows, the row on
  exactly one, and raises `MultipleResultsFound` on several.
-/

namespace CountryApi

/-- One element of the `currencies` array of a raw country record; the
`code` key may be absent (`dict.get("code")`). -/
structure Currency where
  code : Option String
deriving Repr, DecidableEq

/-- A raw country record as fetched from the restcountries API
(`fetch_countries_data`); every field is read with `dict.get`, so each may
be absent.  `population` is read with default `0`, `currencies` with
default `[]`. -/
structure CountryData where
  name : Option String
  capital : Option String
  region : Option String
  population : Option Nat
  currencies : List Currency
  flag : Option String
deriving Repr, DecidableEq

/-- A persisted `countries` row (`app/models.py`, class `Country`).
`name` carries a `unique=True, nullable=False` storage constraint on the
raw (case-preserved) string.  `last_refreshed_at` is `nullable=False` at
the column level, so a persisted row always has one; we model it as `Nat`. -/
structure Country where
  id : Nat
  name : String
  capital : Option String
  region : Option String
  population : Nat
  currency_code : Option String
  exchange_rate : Option ℚ
  estimated_gdp : Option ℚ
  flag_url : Option String
  last_refreshed_at : Nat
deriving Repr, DecidableEq

/-- The `app_metadata` row (`app/models.py`, class `AppMetadata`): fixed
id (default 1) and a nullable timestamp. -/
structure AppMetadata where
  id : Nat
  last_refreshed_at : Option Nat
deriving Repr, DecidableEq

/-- The persisted database state: the `countries` table (with the
autoincrement counter for the generated primary key) and the
`app_metadata` singleton row (`none` while no refresh ever ran; the code
only ever creates and queries the row with `id == 1`). -/
structure DB where
  rows : List Country
  nextId : Nat
  appMeta : Option AppMetadata
deriving Repr, DecidableEq

/-- SQL `lower()` (and Python `str.lower()`), modelled character-wise.
This is extensionally the standard lower-casing of a string; it is spelled
out on the character list so that concrete instances reduce. -/
def pyLower (s : String) : String :=
  ⟨s.data.map Char.toLower⟩

/-- The storage uniqueness constraint declared in `app/models.py`:
`name: str = Field(unique=True, ...)` — uniqueness of the raw,
case-preserved `name` strings. -/
def countryNameUnique (rows : List Country) : Prop :=
  (rows.map (fun r => r.name)).Nodup

instance (rows : List Country) : Decidable (countryNameUnique rows) := by
  unfold countryNameUnique; infer_instance

/-- Modelled from the spec: the uniqueness constraint the spec asserts the
storage layer enforces — uniqueness of the case-normalized (lower-cased)
names.  Kept separate from `countryNameUnique` (the constraint actually
declared in `app/models.py`) so the two can be compared. -/
def countryNameUniqueCI (rows : List Country) : Prop :=
  (rows.map (fun r => pyLower r.name)).Nodup

instance (rows : List Country) : Decidable (countryNameUniqueCI rows) := by
  unfold countryNameUniqueCI; infer_instance

/-- `extract_currency_code` (services.py:67): `if not currencies: return
None` then `currencies[0].get("code")`. -/
def extract_currency_code (currencies : List Currency) : Option String :=
  match currencies with
  | [] => none
  | first_currency :: _ => first_currency.code

/-- `calculate_estimated_gdp` (services.py:83): returns `None` when
`exchange_rate is None or exchange_rate == 0`, otherwise
`population * random.uniform(1000, 2000) / exchange_rate`; the random
draw is the explicit argument `u`. -/
def calculate_estimated_gdp (population : Nat) (exchange_rate : Option ℚ)
    (u : ℚ) : Option ℚ :=
  match exchange_rate with
  | none => none
  | some r => if r = 0 then none else some (population * u / r)

/-- The SQL predicate `func.lower(Country.name) == func.lower(name)` for a
non-NULL query string. -/
def nameMatches (r : Country) (n : String) : Bool :=
  pyLower r.name == pyLower n

/-- Rows matching the case-insensitive name lookup.  A `None` query name
compares as SQL NULL and matches no row. -/
def ciMatches (rows : List Country) (q : Option String) : List Country :=
  match q with
  | none => []
  | some n => rows.filter (fun r => nameMatches r n)

/-- Number of rows matching a case-insensitive name lookup. -/
def ciCount (rows : List Country) (n : String) : Nat :=
  (rows.filter (fun r => nameMatches r n)).length

/-- First row matching a case-insensitive name lookup, if any. -/
def findCI (rows : List Country) (n : String) : Option Country :=
  rows.find? (fun r => nameMatches r n)

/-- `result.scalar_one_or_none()`: `none` on zero rows, the row on exactly
one, `MultipleResultsFound` on several. -/
def scalar_one_or_none (rows : List Country) : Except String (Option Country) :=
  match rows with
  | [] => .ok none
  | [r] => .ok (some r)
  | _ => .error "MultipleResultsFound"

/-- ORM mutation of the single matching entity: replace the first row
matching the case-insensitive lookup by `f` of it (the caller only uses
this when exactly one row matches, so "first match" is "the match"). -/
def setFirstMatch (rows : List Country) (n : String) (f : Country → Country) :
    List Country :=
  match rows with
  | [] => []
  | r :: rs =>
      if nameMatches r n then f r :: rs else r :: setFirstMatch rs n f

/-- `session.delete` of the single matching entity: remove the first row
matching the case-insensitive lookup. -/
def eraseFirstMatch (rows : List Country) (n : String) : List Country :=
  match rows with
  | [] => []
  | r :: rs => if nameMatches r n then rs else r :: eraseFirstMatch rs n

/-- Exchange-rate lookup step of `upsert_country` (services.py:117-120):
`exchange_rate = None; if currency_code: exchange_rate =
exchange_rates.get(currency_code)`. -/
def rateFor (country_data : CountryData)
    (exchange_rates : List (String × ℚ)) : Option ℚ :=
  match extract_currency_code country_data.currencies with
  | some code => exchange_rates.lookup code
  | none => none

/-- The `estimated_gdp` value `upsert_country` persists for a record:
the computed GDP, with `0` substituted when the computation returns
nothing (`estimated_gdp if estimated_gdp is not None else 0`). -/
def storedGdp (country_data : CountryData)
    (exchange_rates : List (String × ℚ)) (u : ℚ) : ℚ :=
  (calculate_estimated_gdp (country_data.population.getD 0)
    (rateFor country_data exchange_rates) u).getD 0

/-- The field overwrite performed by the UPDATE branch of `upsert_country`
(services.py:132-141): every mutable field is overwritten in place
(`name` and `id` are untouched) and `last_refreshed_at` is set to the
current time. -/
def updateFields (country_data : CountryData)
    (exchange_rates : List (String × ℚ)) (u : ℚ) (now : Nat)
    (r0 : Country) : Country :=
  { r0 with
    capital := country_data.capital
    region := country_data.region
    population := country_data.population.getD 0
    currency_code := extract_currency_code country_data.currencies
    exchange_rate := rateFor country_data exchange_rates
    estimated_gdp := some (storedGdp country_data exchange_rates u)
    flag_url := country_data.flag
    last_refreshed_at := now }

/-- The new entity built by the INSERT branch of `upsert_country`
(services.py:145-155); `id` is the generated primary key. -/
def newCountry (n : String) (id : Nat) (country_data : CountryData)
    (exchange_rates : List (String × ℚ)) (u : ℚ) (now : Nat) : Country :=
  { id := id
    name := n
    capital := country_data.capital
    region := country_data.region
    population := country_data.population.getD 0
    currency_code := extract_currency_code country_data.currencies
    exchange_rate := rateFor country_data exchange_rates
    estimated_gdp := some (storedGdp country_data exchange_rates u)
    flag_url := country_data.flag
    last_refreshed_at := now }

/-- `upsert_country` (services.py:102).  Derives `currency_code` from the
record's currencies, looks up its rate, computes the GDP with the given
random draw `u`, then either updates the (unique) case-insensitive name
match in place or inserts a new row; `now` is this call's
`datetime.now(UTC)`.  The name lookup uses `scalar_one_or_none`, which
raises on several matches; inserting a record whose `name` key is absent
would violate the `nullable=False` constraint on `name` at commit time,
modelled as an error here. -/
def upsert_country (db : DB) (country_data : CountryData)
    (exchange_rates : List (String × ℚ)) (u : ℚ) (now : Nat) :
    Except String DB :=
  match scalar_one_or_none (ciMatches db.rows country_data.name) with
  | .error e => .error e
  | .ok (some _) =>
      match country_data.name with
      | none => .error "unreachable: NULL matched no row"
      | some n =>
          .ok { db with rows := setFirstMatch db.rows n (updateFields country_data exchange_rates u now) }
  | .ok none =>
      match country_data.name with
      | none => .error "IntegrityError: countries.name is NOT NULL"
      | some n =>
          .ok { db with
            rows := db.rows ++
              [newCountry n db.nextId country_data exchange_rates u now]
            nextId := db.nextId + 1 }

/-- `update_app_metadata` (services.py:204): select the `id == 1` row;
update its timestamp in place if present, else create
`AppMetadata(id=1, last_refreshed_at=refresh_time)`. -/
def update_app_metadata (db : DB) (refresh_time : Nat) : DB :=
  match db.appMeta with
  | some metadata =>
      { db with appMeta := some { metadata with last_refreshed_at := some refresh_time } }
  | none =>
      { db with appMeta := some { id := 1, last_refreshed_at := some refresh_time } }

/-- The per-record upsert loop of `refresh_all_countries`
(services.py:178): record `i` gets the random draw `urand i` and the clock
reading `tnow i`; the first raised error aborts the loop. -/
def upsert_all (db : DB) (recs : List CountryData)
    (exchange_rates : List (String × ℚ)) (urand : Nat → ℚ) (tnow : Nat → Nat) :
    Except String DB :=
  match recs with
  | [] => .ok db
  | rec :: rest =>
      match upsert_country db rec exchange_rates (urand 0) (tnow 0) with
      | .error e => .error e
      | .ok db' =>
          upsert_all db' rest exchange_rates
            (fun i => urand (i + 1)) (fun i => tnow (i + 1))

/-- The value `refresh_all_countries` returns on success: `(len(countries_data),
refresh_time)`. -/
structure RefreshResult where
  total : Nat
  last_refreshed_at : Nat
deriving Repr, DecidableEq

/-- Outcome of one refresh cycle: the persisted state after the cycle, the
lines printed, and the returned value or the raised error. -/
structure CycleOutcome where
  persisted : DB
  log : List String
  result : Except String RefreshResult
deriving Repr

/-- `refresh_all_countries` (services.py:159).  The two fetches are passed
in as their outcomes (`Except`), as are the random draws, the per-record
clock, the post-loop `refresh_time = datetime.now(UTC)`, and the outcome
of `generate_summary_image`.  Nothing is persisted until the single
`session.commit()`: a fetch failure or an upsert error leaves the
persisted state untouched.  An image-generation failure is caught, logged
and swallowed after the commit. -/
def refresh_all_countries (persisted : DB)
    (fetchCountries : Except String (List CountryData))
    (fetchRates : Except String (List (String × ℚ)))
    (urand : Nat → ℚ) (tnow : Nat → Nat) (refresh_time : Nat)
    (imageResult : Except String Unit) : CycleOutcome :=
  match fetchCountries with
  | .error e => { persisted := persisted, log := [], result := .error e }
  | .ok countries_data =>
    match fetchRates with
    | .error e => { persisted := persisted, log := [], result := .error e }
    | .ok exchange_rates =>
      match upsert_all persisted countries_data exchange_rates urand tnow with
      | .error e => { persisted := persisted, log := [], result := .error e }
      | .ok db1 =>
          let db2 := update_app_metadata db1 refresh_time
          match imageResult with
          | .error img_error =>
              { persisted := db2
                log := ["Warning: Failed to generate image: " ++ img_error]
                result := .ok { total := countries_data.length
                                last_refreshed_at := refresh_time } }
          | .ok _ =>
              { persisted := db2
                log := []
                result := .ok { total := countries_data.length
                                last_refreshed_at := refresh_time } }

/-- `get_country_by_name` (services.py:262): case-insensitive lookup via
`scalar_one_or_none`. -/
def get_country_by_name (db : DB) (name : String) :
    Except String (Option Country) :=
  scalar_one_or_none (db.rows.filter (fun r => nameMatches r name))

/-- `delete_country_by_name` (services.py:277): look the name up
case-insensitively; if found, delete that entity, commit and return
`true`; else return `false` with nothing written. -/
def delete_country_by_name (db : DB) (name : String) :
    Except String (DB × Bool) :=
  match get_country_by_name db name with
  | .error e => .error e
  | .ok (some _) => .ok ({ db with rows := eraseFirstMatch db.rows name }, true)
  | .ok none => .ok (db, false)

/-- Python truthiness of an optional string filter value (`if region:`):
`None` and the empty string are falsy. -/
def truthy (s : Option String) : Bool :=
  match s with
  | none => false
  | some v => !(v == "")

/-- SQL `func.lower(col) == func.lower(q)` where `col` is nullable: a NULL
column value matches nothing. -/
def optFieldMatches (field : Option String) (q : String) : Bool :=
  match field with
  | none => false
  | some v => pyLower v == pyLower q

/-- Comparison on the nullable `estimated_gdp` / key column used by
`ORDER BY`: NULLs sort first ascending (storage-specific, claim-irrelevant:
rows written by the upsert never carry a NULL `estimated_gdp`). -/
def optLe (a b : Option ℚ) : Bool :=
  match a, b with
  | none, _ => true
  | some _, none => false
  | some x, some y => decide (x ≤ y)

/-- Ascending order on `estimated_gdp`. -/
def gdpAsc (a b : Country) : Prop :=
  optLe a.estimated_gdp b.estimated_gdp = true

/-- Descending order on `estimated_gdp`. -/
def gdpDesc (a b : Country) : Prop :=
  optLe b.estimated_gdp a.estimated_gdp = true

/-- Ascending order on `population`. -/
def popAsc (a b : Country) : Prop :=
  a.population ≤ b.population

/-- Descending order on `population`. -/
def popDesc (a b : Country) : Prop :=
  b.population ≤ a.population

instance : DecidableRel gdpAsc := fun a b => by unfold gdpAsc; infer_instance
instance : DecidableRel gdpDesc := fun a b => by unfold gdpDesc; infer_instance
instance : DecidableRel popAsc := fun a b => by unfold popAsc; infer_instance
instance : DecidableRel popDesc := fun a b => by unfold popDesc; infer_instance

/-- Filter stage of `get_countries_with_filters` (services.py:242-247):
optional case-insensitive region and currency filters; a Python-falsy
value (`None` or the empty string) skips its filter. -/
def applyFilters (rows : List Country) (region currency : Option String) :
    List Country :=
  let s1 := if truthy region then
      rows.filter (fun c => optFieldMatches c.region (region.getD ""))
    else rows
  if truthy currency then
    s1.filter (fun c => optFieldMatches c.currency_code (currency.getD ""))
  else s1

/-- Sort stage of `get_countries_with_filters` (services.py:249-257): an
if/elif chain over the four recognized sort values; any other value
applies no ordering.  `ORDER BY` on a key column is modelled as a stable
sort by that key. -/
def applySort (sort : Option String) (rows : List Country) : List Country :=
  if sort == some "gdp_desc" then rows.insertionSort gdpDesc
  else if sort == some "gdp_asc" then rows.insertionSort gdpAsc
  else if sort == some "population_desc" then rows.insertionSort popDesc
  else if sort == some "population_asc" then rows.insertionSort popAsc
  else rows

/-- `get_countries_with_filters` (services.py:226): build the query by
applying the optional filters, then the optional ordering. -/
def get_countries_with_filters (rows : List Country)
    (region currency sort : Option String) : List Country :=
  applySort sort (applyFilters rows region currency)

/-! ### Helper lemmas -/

theorem nameMatches_true_iff (r : Country) (n : String) :
    nameMatches r n = true ↔ pyLower r.name = pyLower n := by
  simp [nameMatches]

theorem nameMatches_congr (r : Country) (n1 n2 : String)
    (h : pyLower n1 = pyLower n2) : nameMatches r n1 = nameMatches r n2 := by
  simp [nameMatches, h]

theorem ciCount_congr (rows : List Country) (n1 n2 : String)
    (h : pyLower n1 = pyLower n2) : ciCount rows n1 = ciCount rows n2 := by
  unfold ciCount
  congr 1
  apply List.filter_congr
  intro r _
  exact nameMatches_congr r n1 n2 h

theorem findCI_eq_head_filter (rows : List Country) (n : String) :
    findCI rows n = (rows.filter (fun r => nameMatches r n)).head? :=
  (List.filter_head? _ rows).symm

theorem setFirstMatch_map_name (rows : List Country) (n : String)
    (f : Country → Country) (hf : ∀ r, (f r).name = r.name) :
    (setFirstMatch rows n f).map (fun r => r.name)
      = rows.map (fun r => r.name) := by
  induction rows with
  | nil => rfl
  | cons r rs ih =>
      cases h : nameMatches r n with
      | true => simp [setFirstMatch, h, hf]
      | false => simp [setFirstMatch, h, ih]

theorem setFirstMatch_length (rows : List Country) (n : String)
    (f : Country → Country) :
    (setFirstMatch rows n f).length = rows.length := by
  induction rows with
  | nil => rfl
  | cons r rs ih =>
      cases h : nameMatches r n with
      | true => simp [setFirstMatch, h]
      | false => simp [setFirstMatch, h, ih]

theorem nameMatches_of_name_eq (r r' : Country) (n : String)
    (h : r'.name = r.name) : nameMatches r' n = nameMatches r n := by
  simp [nameMatches, h]

theorem ciCount_setFirstMatch (rows : List Country) (n : String)
    (f : Country → Country) (hf : ∀ r, (f r).name = r.name) :
    ciCount (setFirstMatch rows n f) n = ciCount rows n := by
  induction rows with
  | nil => rfl
  | cons r rs ih =>
      cases h : nameMatches r n with
      | true =>
          have hfr : nameMatches (f r) n = true := by
            rw [nameMatches_of_name_eq r (f r) n (hf r)]
            exact h
          simp [setFirstMatch, ciCount, h, hfr]
      | false =>
          simpa [setFirstMatch, ciCount, h] using ih

theorem findCI_setFirstMatch (rows : List Country) (n : String)
    (f : Country → Country) (hf : ∀ r, (f r).name = r.name) :
    findCI (setFirstMatch rows n f) n = (findCI rows n).map f := by
  induction rows with
  | nil => rfl
  | cons r rs ih =>
      cases h : nameMatches r n with
      | true =>
          have hfr : nameMatches (f r) n = true := by
            rw [nameMatches_of_name_eq r (f r) n (hf r)]
            exact h
          simp [setFirstMatch, findCI, List.find?, h, hfr]
      | false =>
          simpa [setFirstMatch, findCI, List.find?, h] using ih

theorem ciUnique_implies_unique (rows : List Country)
    (h : countryNameUniqueCI rows) : countryNameUnique rows := by
  unfold countryNameUniqueCI at h
  unfold countryNameUnique
  have hmap : rows.map (fun r => pyLower r.name)
      = (rows.map (fun r => r.name)).map pyLower := by
    simp [List.map_map]
  exact List.Nodup.of_map pyLower (hmap ▸ h)

theorem upsert_country_appMeta (db : DB) (rec : CountryData)
    (rates : List (String × ℚ)) (u : ℚ) (now : Nat) (db' : DB)
    (h : upsert_country db rec rates u now = .ok db') :
    db'.appMeta = db.appMeta ∧ db.rows.length ≤ db'.rows.length := by
  unfold upsert_country at h
  split at h
  · simp at h
  · split at h
    · simp at h
    · simp only [Except.ok.injEq] at h
      subst h
      exact ⟨rfl, by simp [setFirstMatch_length]⟩
  · split at h
    · simp at h
    · simp only [Except.ok.injEq] at h
      subst h
      exact ⟨rfl, by simp⟩

theorem upsert_all_appMeta (recs : List CountryData) (db : DB)
    (rates : List (String × ℚ)) (urand : Nat → ℚ) (tnow : Nat → Nat) (db' : DB)
    (h : upsert_all db recs rates urand tnow = .ok db') :
    db'.appMeta = db.appMeta := by
  induction recs generalizing db urand tnow with
  | nil =>
      simp only [upsert_all, Except.ok.injEq] at h
      subst h; rfl
  | cons rec rest ih =>
      simp only [upsert_all] at h
      split at h
      · simp at h
      · rename_i db1 h1
        exact (ih db1 _ _ h).trans (upsert_country_appMeta db rec rates _ _ db1 h1).1

theorem upsert_country_ok (db : DB) (rec : CountryData)
    (rates : List (String × ℚ)) (u : ℚ) (now : Nat) (n : String)
    (hname : rec.name = some n) (hcount : ciCount db.rows n ≤ 1) :
    ∃ db' row,
      upsert_country db rec rates u now = .ok db' ∧
      (db'.rows.length = db.rows.length ∨ db'.rows.length = db.rows.length + 1) ∧
      ciCount db'.rows n = 1 ∧
      findCI db'.rows n = some row ∧
      row.capital = rec.capital ∧
      row.region = rec.region ∧
      row.population = rec.population.getD 0 ∧
      row.currency_code = extract_currency_code rec.currencies ∧
      row.exchange_rate = rateFor rec rates ∧
      row.estimated_gdp = some (storedGdp rec rates u) ∧
      row.flag_url = rec.flag ∧
      row.last_refreshed_at = now ∧
      db'.appMeta = db.appMeta := by
  cases hf : db.rows.filter (fun r => nameMatches r n) with
  | nil =>
      refine ⟨{ db with
          rows := db.rows ++ [newCountry n db.nextId rec rates u now]
          nextId := db.nextId + 1 },
        newCountry n db.nextId rec rates u now,
        ?_, ?_, ?_, ?_, rfl, rfl, rfl, rfl, rfl, rfl, rfl, rfl, rfl⟩
      · unfold upsert_country
        simp only [hname]
        simp only [ciMatches]
        rw [hf]
        rfl
      · right
        simp
      · show ciCount (db.rows ++ [newCountry n db.nextId rec rates u now]) n = 1
        unfold ciCount
        rw [List.filter_append, hf]
        simp [nameMatches, newCountry]
      · show findCI (db.rows ++ [newCountry n db.nextId rec rates u now]) n
          = some (newCountry n db.nextId rec rates u now)
        rw [findCI_eq_head_filter, List.filter_append, hf]
        simp [nameMatches, newCountry]
  | cons r rest =>
      cases rest with
      | nil =>
          refine ⟨{ db with rows := setFirstMatch db.rows n (updateFields rec rates u now) },
            updateFields rec rates u now r,
            ?_, ?_, ?_, ?_, rfl, rfl, rfl, rfl, rfl, rfl, rfl, rfl, rfl⟩
          · unfold upsert_country
            simp only [hname]
            simp only [ciMatches]
            rw [hf]
            rfl
          · left
            exact setFirstMatch_length db.rows n _
          · show ciCount (setFirstMatch db.rows n (updateFields rec rates u now)) n = 1
            rw [ciCount_setFirstMatch db.rows n (updateFields rec rates u now)
              (fun r0 => rfl)]
            simp [ciCount, hf]
          · show findCI (setFirstMatch db.rows n (updateFields rec rates u now)) n
              = some (updateFields rec rates u now r)
            rw [findCI_setFirstMatch db.rows n (updateFields rec rates u now)
              (fun r0 => rfl),
              findCI_eq_head_filter, hf]
            rfl
      | cons r2 rest2 =>
          exfalso
          simp [ciCount, hf] at hcount


theorem length_filter_not_add (p : Country → Bool) (l : List Country) :
    (l.filter (fun a => !(p a))).length + (l.filter p).length = l.length := by
  induction l with
  | nil => rfl
  | cons a l ih =>
      cases h : p a <;> simp [h, List.filter_cons] <;> omega

theorem eraseFirstMatch_eq_filter (rows : List Country) (n : String)
    (h : ciCount rows n ≤ 1) :
    eraseFirstMatch rows n = rows.filter (fun r => !(nameMatches r n)) := by
  induction rows with
  | nil => rfl
  | cons r rs ih =>
      cases hm : nameMatches r n with
      | true =>
          have h0 : rs.filter (fun r => nameMatches r n) = [] := by
            have h2 : (rs.filter (fun r => nameMatches r n)).length + 1 ≤ 1 := by
              have h1 : ciCount (r :: rs) n
                  = (rs.filter (fun r => nameMatches r n)).length + 1 := by
                simp [ciCount, List.filter_cons, hm]
              rw [← h1]
              exact h
            have hl : (rs.filter (fun r => nameMatches r n)).length = 0 := by
              omega
            exact List.length_eq_zero.mp hl
          have hall : rs.filter (fun r => !(nameMatches r n)) = rs := by
            apply List.filter_eq_self.mpr
            intro a ha
            have := List.filter_eq_nil_iff.mp h0 a ha
            simpa using this
          simp [eraseFirstMatch, List.filter_cons, hm, hall]
      | false =>
          have h' : ciCount rs n ≤ 1 := by
            simpa [ciCount, List.filter_cons, hm] using h
          simp [eraseFirstMatch, List.filter_cons, hm, ih h']

theorem applySort_perm (sort : Option String) (rows : List Country) :
    (applySort sort rows).Perm rows := by
  unfold applySort
  split_ifs <;>
    first
      | exact List.perm_insertionSort _ _
      | exact List.Perm.refl _

/-! ### Theorems -/

/-- C9: for every non-empty currency list whose first element carries a
code, `extract_currency_code` returns that first element's code; for the
empty list it returns nothing; and it is deterministic (two calls on the
same input agree). -/
theorem extract_currency_code_spec :
    (∀ (c : Currency) (rest : List Currency) (code : String),
        c.code = some code → extract_currency_code (c :: rest) = some code) ∧
    extract_currency_code [] = none ∧
    (∀ l : List Currency, extract_currency_code l = extract_currency_code l) := by
  refine ⟨?_, rfl, fun _ => rfl⟩
  intro c rest code h
  simpa [extract_currency_code] using h

/-- Witness for C9 at the list `[{code := "NGN"}, {code := "USD"}]`. -/
theorem extract_currency_code_spec_witness :
    extract_currency_code [⟨some "NGN"⟩, ⟨some "USD"⟩] = some "NGN" :=
  extract_currency_code_spec.1 ⟨some "NGN"⟩ [⟨some "USD"⟩] "NGN" rfl

/-- C3 counterexample: at population `0`, rate `1`, random draw `1500`,
the function returns `some 0`, but the claimed half-open interval
`[0 * 1000 / 1, 0 * 2000 / 1) = [0, 0)` is empty, so the claimed
containment of the result in that interval fails. -/
theorem calculate_estimated_gdp_interval_counterexample :
    calculate_estimated_gdp 0 (some 1) 1500 = some 0 ∧
    ¬ (((0 : ℚ) * 1000 / 1 ≤ 0) ∧ ((0 : ℚ) < 0 * 2000 / 1)) := by
  constructor
  · norm_num [calculate_estimated_gdp]
  · norm_num

/-- C3 amended: `calculate_estimated_gdp p rate u` (with the random draw
`u ∈ [1000, 2000)`) returns nothing iff the rate is absent or exactly `0`;
otherwise it returns `p * u / rate`; consequently, for a positive rate and
positive population the result lies in the half-open interval
`[p * 1000 / rate, p * 2000 / rate)`, and for population `0` the result is
exactly `0`. -/
theorem calculate_estimated_gdp_spec (p : Nat) (rate : Option ℚ) (u : ℚ)
    (hu1 : 1000 ≤ u) (hu2 : u < 2000) :
    (calculate_estimated_gdp p rate u = none ↔ rate = none ∨ rate = some 0) ∧
    (∀ r, rate = some r → r ≠ 0 →
        calculate_estimated_gdp p rate u = some ((p : ℚ) * u / r)) ∧
    (∀ r, rate = some r → 0 < r → 0 < p →
        (p : ℚ) * 1000 / r ≤ (p : ℚ) * u / r ∧
        (p : ℚ) * u / r < (p : ℚ) * 2000 / r) ∧
    (p = 0 → ∀ r, rate = some r → r ≠ 0 →
        calculate_estimated_gdp p rate u = some 0) := by
  refine ⟨?_, ?_, ?_, ?_⟩
  · cases rate with
    | none => simp [calculate_estimated_gdp]
    | some r =>
        by_cases hr : r = 0 <;> simp [calculate_estimated_gdp, hr]
  · intro r hr hr0
    subst hr
    simp [calculate_estimated_gdp, hr0]
  · intro r hr hrpos hppos
    have hp : (0 : ℚ) < (p : ℚ) := by exact_mod_cast hppos
    constructor
    · exact (div_le_div_iff_of_pos_right hrpos).mpr
        (mul_le_mul_of_nonneg_left hu1 hp.le)
    · exact (div_lt_div_iff_of_pos_right hrpos).mpr
        ((mul_lt_mul_left hp).mpr hu2)
  · intro hp r hr hr0
    subst hr hp
    simp [calculate_estimated_gdp, hr0]

/-- Witness for C3 (amended) at `p = 1`, rate `2`, draw `1500`. -/
theorem calculate_estimated_gdp_spec_witness :
    calculate_estimated_gdp 1 (some 2) 1500 = some (((1 : Nat) : ℚ) * 1500 / 2) :=
  (calculate_estimated_gdp_spec 1 (some 2) 1500 (by norm_num) (by norm_num)).2.1
    2 rfl (by norm_num)

/-- C1: if either external fetch raises, the refresh cycle raises before
any upsert or metadata write, so the persisted state after the cycle is
exactly the state before it. -/
theorem refresh_fetch_failure_no_writes (db : DB)
    (fetchCountries : Except String (List CountryData))
    (fetchRates : Except String (List (String × ℚ)))
    (urand : Nat → ℚ) (tnow : Nat → Nat) (t : Nat) (img : Except String Unit)
    (h : (∃ e, fetchCountries = .error e) ∨ (∃ e, fetchRates = .error e)) :
    (refresh_all_countries db fetchCountries fetchRates urand tnow t img).persisted
      = db ∧
    ∃ msg, (refresh_all_countries db fetchCountries fetchRates urand tnow t img).result
      = .error msg := by
  rcases h with ⟨e, he⟩ | ⟨e, he⟩
  · subst he; exact ⟨rfl, e, rfl⟩
  · cases fetchCountries with
    | error e' => subst he; exact ⟨rfl, e', rfl⟩
    | ok l => subst he; exact ⟨rfl, e, rfl⟩

/-- Witness for C1: a failing country fetch over the empty database. -/
theorem refresh_fetch_failure_no_writes_witness :
    (refresh_all_countries ⟨[], 1, none⟩ (.error "boom") (.ok [])
        (fun _ => 1500) (fun _ => 0) 0 (.ok ())).persisted = ⟨[], 1, none⟩ ∧
    ∃ msg, (refresh_all_countries ⟨[], 1, none⟩ (.error "boom") (.ok [])
        (fun _ => 1500) (fun _ => 0) 0 (.ok ())).result = .error msg :=
  refresh_fetch_failure_no_writes ⟨[], 1, none⟩ (.error "boom") (.ok [])
    (fun _ => 1500) (fun _ => 0) 0 (.ok ()) (.inl ⟨"boom", rfl⟩)

/-- C8: when both fetches and all upserts succeed, a failure of the
summary-image generator is caught and logged and the cycle still returns
its success result; the persisted state is the same as when image
generation succeeds. -/
theorem refresh_image_failure_swallowed (db : DB) (recs : List CountryData)
    (rates : List (String × ℚ)) (urand : Nat → ℚ) (tnow : Nat → Nat) (t : Nat)
    (db1 : DB) (h : upsert_all db recs rates urand tnow = .ok db1) (e : String) :
    (refresh_all_countries db (.ok recs) (.ok rates) urand tnow t (.error e)).result
      = .ok { total := recs.length, last_refreshed_at := t } ∧
    (refresh_all_countries db (.ok recs) (.ok rates) urand tnow t (.error e)).persisted
      = (refresh_all_countries db (.ok recs) (.ok rates) urand tnow t (.ok ())).persisted := by
  simp [refresh_all_countries, h]

/-- Witness for C8: an empty record batch over the empty database with a
failing image generator. -/
theorem refresh_image_failure_swallowed_witness :
    (refresh_all_countries ⟨[], 1, none⟩ (.ok []) (.ok [])
        (fun _ => 1500) (fun _ => 0) 5 (.error "font")).result
      = .ok { total := ([] : List CountryData).length, last_refreshed_at := 5 } ∧
    (refresh_all_countries ⟨[], 1, none⟩ (.ok []) (.ok [])
        (fun _ => 1500) (fun _ => 0) 5 (.error "font")).persisted
      = (refresh_all_countries ⟨[], 1, none⟩ (.ok []) (.ok [])
        (fun _ => 1500) (fun _ => 0) 5 (.ok ())).persisted :=
  refresh_image_failure_swallowed ⟨[], 1, none⟩ [] []
    (fun _ => 1500) (fun _ => 0) 5 ⟨[], 1, none⟩ rfl "font"

/-- C2: two sequential upserts of the same name (any case variation),
starting from a state in which that name has at most one case-insensitive
match, both succeed and leave exactly one persisted entity with that name
(case-insensitively); its mutable fields hold the values derived from the
second record, including `last_refreshed_at` set to the second upsert's
time. -/
theorem upsert_twice_last_wins (db : DB) (rec1 rec2 : CountryData)
    (rates1 rates2 : List (String × ℚ)) (u1 u2 : ℚ) (t1 t2 : Nat)
    (n1 n2 : String)
    (h1 : rec1.name = some n1) (h2 : rec2.name = some n2)
    (hsame : pyLower n1 = pyLower n2)
    (hcount : ciCount db.rows n1 ≤ 1) :
    ∃ db1 db2 row,
      upsert_country db rec1 rates1 u1 t1 = .ok db1 ∧
      upsert_country db1 rec2 rates2 u2 t2 = .ok db2 ∧
      ciCount db2.rows n2 = 1 ∧
      findCI db2.rows n2 = some row ∧
      row.capital = rec2.capital ∧
      row.region = rec2.region ∧
      row.population = rec2.population.getD 0 ∧
      row.currency_code = extract_currency_code rec2.currencies ∧
      row.exchange_rate = rateFor rec2 rates2 ∧
      row.estimated_gdp = some (storedGdp rec2 rates2 u2) ∧
      row.flag_url = rec2.flag ∧
      row.last_refreshed_at = t2 := by
  obtain ⟨db1, row1, hup1, -, hcount1, -⟩ :=
    upsert_country_ok db rec1 rates1 u1 t1 n1 h1 hcount
  have hcount2 : ciCount db1.rows n2 ≤ 1 := by
    rw [← ciCount_congr db1.rows n1 n2 hsame, hcount1]
  obtain ⟨db2, row, hup2, -, hc2, hfind, hcap, hreg, hpop, hcc, hex, hgdp,
    hflag, hlast, -⟩ :=
    upsert_country_ok db1 rec2 rates2 u2 t2 n2 h2 hcount2
  exact ⟨db1, db2, row, hup1, hup2, hc2, hfind, hcap, hreg, hpop, hcc, hex,
    hgdp, hflag, hlast⟩

/-- Witness for C2: "Nigeria" then "NIGERIA" upserted into the empty
database. -/
theorem upsert_twice_last_wins_witness :
    ∃ db1 db2 row,
      upsert_country ⟨[], 1, none⟩
        ⟨some "Nigeria", some "Abuja", some "Africa", some 10,
          [⟨some "NGN"⟩], some "f1"⟩ [] 1500 1 = .ok db1 ∧
      upsert_country db1
        ⟨some "NIGERIA", some "Abuja2", some "Africa", some 20, [], some "f2"⟩
        [] 1600 2 = .ok db2 ∧
      ciCount db2.rows "NIGERIA" = 1 ∧
      findCI db2.rows "NIGERIA" = some row ∧
      row.capital = some "Abuja2" ∧
      row.region = some "Africa" ∧
      row.population = 20 ∧
      row.currency_code = extract_currency_code [] ∧
      row.exchange_rate = rateFor
        ⟨some "NIGERIA", some "Abuja2", some "Africa", some 20, [], some "f2"⟩ [] ∧
      row.estimated_gdp = some (storedGdp
        ⟨some "NIGERIA", some "Abuja2", some "Africa", some 20, [], some "f2"⟩
        [] 1600) ∧
      row.flag_url = some "f2" ∧
      row.last_refreshed_at = 2 :=
  upsert_twice_last_wins ⟨[], 1, none⟩
    ⟨some "Nigeria", some "Abuja", some "Africa", some 10,
      [⟨some "NGN"⟩], some "f1"⟩
    ⟨some "NIGERIA", some "Abuja2", some "Africa", some 20, [], some "f2"⟩
    [] [] 1500 1600 1 2 "Nigeria" "NIGERIA" rfl rfl (by decide) (by decide)

/-- C4: an upsert of a record (whose name has at most one case-insensitive
match) always persists it — the row count grows by at most one and a
matching row exists afterwards — and the persisted `estimated_gdp` is
never null: when the GDP computation returns nothing it is exactly `0`. -/
theorem upsert_never_skips_and_gdp_never_null (db : DB) (rec : CountryData)
    (rates : List (String × ℚ)) (u : ℚ) (now : Nat) (n : String)
    (hname : rec.name = some n) (hcount : ciCount db.rows n ≤ 1) :
    ∃ db' row,
      upsert_country db rec rates u now = .ok db' ∧
      (db'.rows.length = db.rows.length ∨ db'.rows.length = db.rows.length + 1) ∧
      findCI db'.rows n = some row ∧
      row.estimated_gdp ≠ none ∧
      (calculate_estimated_gdp (rec.population.getD 0) (rateFor rec rates) u = none
        → row.estimated_gdp = some 0) := by
  obtain ⟨db', row, hup, hlen, -, hfind, -, -, -, -, -, hgdp, -, -, -⟩ :=
    upsert_country_ok db rec rates u now n hname hcount
  refine ⟨db', row, hup, hlen, hfind, ?_, ?_⟩
  · rw [hgdp]
    simp
  · intro hnone
    rw [hgdp]
    unfold storedGdp
    rw [hnone]
    rfl

/-- Witness for C4: a record with no currencies (hence no rate, GDP
computation returns nothing) upserted into the empty database. -/
theorem upsert_never_skips_and_gdp_never_null_witness :
    ∃ db' row,
      upsert_country ⟨[], 1, none⟩
        ⟨some "Atlantis", none, none, some 5, [], none⟩ [] 1500 3 = .ok db' ∧
      (db'.rows.length = ([] : List Country).length ∨
        db'.rows.length = ([] : List Country).length + 1) ∧
      findCI db'.rows "Atlantis" = some row ∧
      row.estimated_gdp ≠ none ∧
      (calculate_estimated_gdp 5
          (rateFor ⟨some "Atlantis", none, none, some 5, [], none⟩ []) 1500 = none
        → row.estimated_gdp = some 0) :=
  upsert_never_skips_and_gdp_never_null ⟨[], 1, none⟩
    ⟨some "Atlantis", none, none, some 5, [], none⟩ [] 1500 3 "Atlantis"
    rfl (by decide)

/-- C5 counterexample: two persisted rows whose names differ only in case
("Nigeria" and "NIGERIA") satisfy the storage uniqueness constraint
actually declared in `app/models.py` (uniqueness of the raw `name`), yet
violate case-insensitive uniqueness — so the storage constraint is not on
the case-normalized name. -/
theorem storage_unique_not_case_normalized :
    countryNameUnique
      [⟨1, "Nigeria", none, none, 0, none, none, none, none, 0⟩,
       ⟨2, "NIGERIA", none, none, 0, none, none, none, none, 0⟩] ∧
    ¬ countryNameUniqueCI
      [⟨1, "Nigeria", none, none, 0, none, none, none, none, 0⟩,
       ⟨2, "NIGERIA", none, none, 0, none, none, none, none, 0⟩] := by
  decide

/-- C5 amended: the storage uniqueness constraint is on the raw
(case-preserved) name, so by itself it admits rows differing only in
case; case-insensitive uniqueness of the persisted set is instead an
invariant preserved by the upsert's case-insensitive lookup, and it in
turn implies the declared storage constraint. -/
theorem upsert_preserves_ci_uniqueness (db : DB) (rec : CountryData)
    (rates : List (String × ℚ)) (u : ℚ) (now : Nat) (db' : DB)
    (hci : countryNameUniqueCI db.rows)
    (h : upsert_country db rec rates u now = .ok db') :
    countryNameUniqueCI db'.rows ∧ countryNameUnique db'.rows := by
  cases hn : rec.name with
  | none =>
      exfalso
      simp [upsert_country, hn, ciMatches, scalar_one_or_none] at h
  | some n =>
      cases hf : db.rows.filter (fun r => nameMatches r n) with
      | nil =>
          have hdb' : db' = { db with
              rows := db.rows ++ [newCountry n db.nextId rec rates u now]
              nextId := db.nextId + 1 } := by
            unfold upsert_country at h
            simp only [hn] at h
            simp only [ciMatches] at h
            rw [hf] at h
            simp only [scalar_one_or_none, Except.ok.injEq] at h
            exact h.symm
          subst hdb'
          have hnotin : pyLower n ∉ db.rows.map (fun r => pyLower r.name) := by
            intro hmem
            obtain ⟨r, hr, hrn⟩ := List.mem_map.mp hmem
            exact absurd (by simp [nameMatches, hrn] : nameMatches r n = true)
              (by simpa using List.filter_eq_nil_iff.mp hf r hr)
          have hciNew : countryNameUniqueCI
              (db.rows ++ [newCountry n db.nextId rec rates u now]) := by
            unfold countryNameUniqueCI
            rw [List.map_append]
            refine List.nodup_append.mpr ⟨hci, by simp, ?_⟩
            intro x hx hx2
            simp only [List.map_cons, List.map_nil, List.mem_singleton] at hx2
            subst hx2
            exact hnotin hx
          exact ⟨hciNew, ciUnique_implies_unique _ hciNew⟩
      | cons r rest =>
          cases rest with
          | nil =>
              have hdb' : db' = { db with rows := setFirstMatch db.rows n (updateFields rec rates u now) } := by
                unfold upsert_country at h
                simp only [hn] at h
                simp only [ciMatches] at h
                rw [hf] at h
                simp only [scalar_one_or_none, Except.ok.injEq] at h
                exact h.symm
              subst hdb'
              have hmap : (setFirstMatch db.rows n
                    (updateFields rec rates u now)).map (fun r => pyLower r.name)
                  = db.rows.map (fun r => pyLower r.name) := by
                have hnames := setFirstMatch_map_name db.rows n
                  (updateFields rec rates u now) (fun r0 => rfl)
                calc (setFirstMatch db.rows n
                        (updateFields rec rates u now)).map (fun r => pyLower r.name)
                    = ((setFirstMatch db.rows n
                        (updateFields rec rates u now)).map
                          (fun r => r.name)).map pyLower := by
                      simp [List.map_map]
                  _ = (db.rows.map (fun r => r.name)).map pyLower := by
                      rw [hnames]
                  _ = db.rows.map (fun r => pyLower r.name) := by
                      simp [List.map_map]
              have hciNew : countryNameUniqueCI
                  (setFirstMatch db.rows n (updateFields rec rates u now)) := by
                unfold countryNameUniqueCI
                rw [hmap]
                exact hci
              exact ⟨hciNew, ciUnique_implies_unique _ hciNew⟩
          | cons r2 rest2 =>
              exfalso
              unfold upsert_country at h
              simp only [hn] at h
              simp only [ciMatches] at h
              rw [hf] at h
              simp [scalar_one_or_none] at h

/-- Witness for C5 (amended): inserting "Nigeria" into the empty database
preserves both forms of uniqueness. -/
theorem upsert_preserves_ci_uniqueness_witness :
    countryNameUniqueCI
      [newCountry "Nigeria" 1
        ⟨some "Nigeria", none, none, some 10, [], none⟩ [] 1500 7] ∧
    countryNameUnique
      [newCountry "Nigeria" 1
        ⟨some "Nigeria", none, none, some 10, [], none⟩ [] 1500 7] :=
  upsert_preserves_ci_uniqueness ⟨[], 1, none⟩
    ⟨some "Nigeria", none, none, some 10, [], none⟩ [] 1500 7
    ⟨[newCountry "Nigeria" 1
        ⟨some "Nigeria", none, none, some 10, [], none⟩ [] 1500 7], 2, none⟩
    (by decide) rfl

/-- C6: on a successful refresh (both fetches and every upsert succeed),
the cycle returns the fetched record count together with the cycle's
completion timestamp, and afterwards the singleton `app_metadata` row
exists with `last_refreshed_at` equal to that same timestamp — created
with the fixed id 1 if this was the first refresh, updated in place
otherwise. -/
theorem refresh_success_result_and_metadata (db : DB) (recs : List CountryData)
    (rates : List (String × ℚ)) (urand : Nat → ℚ) (tnow : Nat → Nat) (t : Nat)
    (img : Except String Unit) (db1 : DB)
    (h : upsert_all db recs rates urand tnow = .ok db1) :
    (refresh_all_countries db (.ok recs) (.ok rates) urand tnow t img).result
      = .ok { total := recs.length, last_refreshed_at := t } ∧
    ∃ m, (refresh_all_countries db (.ok recs) (.ok rates) urand tnow t img).persisted.appMeta
        = some m ∧
      m.last_refreshed_at = some t ∧
      (db.appMeta = none → m = { id := 1, last_refreshed_at := some t }) ∧
      (∀ m0, db.appMeta = some m0 → m = { m0 with last_refreshed_at := some t }) := by
  have hpre := upsert_all_appMeta recs db rates urand tnow db1 h
  constructor
  · cases img <;> simp [refresh_all_countries, h]
  · cases hm : db.appMeta with
    | none =>
        refine ⟨{ id := 1, last_refreshed_at := some t }, ?_, rfl, fun _ => rfl, ?_⟩
        · cases img <;>
            simp [refresh_all_countries, h, update_app_metadata, hpre, hm]
        · intro m0 hm0
          cases hm0
    | some m0 =>
        refine ⟨{ m0 with last_refreshed_at := some t }, ?_, rfl, ?_, ?_⟩
        · cases img <;>
            simp [refresh_all_countries, h, update_app_metadata, hpre, hm]
        · intro hnone
          cases hnone
        · intro m0' hm0'
          injection hm0' with e
          rw [e]

/-- Witness for C6: a successful refresh of an empty batch over the empty
database. -/
theorem refresh_success_result_and_metadata_witness :
    (refresh_all_countries ⟨[], 1, none⟩ (.ok []) (.ok [])
        (fun _ => 1500) (fun _ => 0) 9 (.ok ())).result
      = .ok { total := ([] : List CountryData).length, last_refreshed_at := 9 } ∧
    ∃ m, (refresh_all_countries ⟨[], 1, none⟩ (.ok []) (.ok [])
        (fun _ => 1500) (fun _ => 0) 9 (.ok ())).persisted.appMeta = some m ∧
      m.last_refreshed_at = some 9 ∧
      ((⟨[], 1, none⟩ : DB).appMeta = none →
        m = { id := 1, last_refreshed_at := some 9 }) ∧
      (∀ m0, (⟨[], 1, none⟩ : DB).appMeta = some m0 →
        m = { m0 with last_refreshed_at := some 9 }) :=
  refresh_success_result_and_metadata ⟨[], 1, none⟩ [] []
    (fun _ => 1500) (fun _ => 0) 9 (.ok ()) ⟨[], 1, none⟩ rfl

/-- C7: deleteByName performs a case-insensitive lookup and returns true
exactly when a matching entity existed, removing only that entity; on
not-found it reports failure and leaves the persisted store completely
unchanged. -/
theorem delete_country_by_name_spec (db : DB) (name : String)
    (h : ciCount db.rows name ≤ 1) :
    ∃ db' b, delete_country_by_name db name = .ok (db', b) ∧
      (b = true ↔ ∃ r ∈ db.rows, nameMatches r name = true) ∧
      (b = false → db' = db) ∧
      (b = true →
        db'.rows = db.rows.filter (fun r => !(nameMatches r name)) ∧
        db'.rows.length + 1 = db.rows.length ∧
        db'.nextId = db.nextId ∧ db'.appMeta = db.appMeta) := by
  cases hf : db.rows.filter (fun r => nameMatches r name) with
  | nil =>
      refine ⟨db, false, ?_, ?_, fun _ => rfl, ?_⟩
      · unfold delete_country_by_name get_country_by_name
        rw [hf]
        rfl
      · constructor
        · intro hcontra
          cases hcontra
        · rintro ⟨r, hr, hmatch⟩
          exact absurd hmatch (by simpa using List.filter_eq_nil_iff.mp hf r hr)
      · intro hcontra
        cases hcontra
  | cons r rest =>
      cases rest with
      | nil =>
          refine ⟨{ db with rows := eraseFirstMatch db.rows name }, true,
            ?_, ?_, ?_, ?_⟩
          · unfold delete_country_by_name get_country_by_name
            rw [hf]
            rfl
          · constructor
            · intro _
              have hr : r ∈ db.rows.filter (fun r => nameMatches r name) := by
                rw [hf]
                exact List.mem_singleton.mpr rfl
              exact ⟨r, (List.mem_filter.mp hr).1, (List.mem_filter.mp hr).2⟩
            · intro _
              rfl
          · intro hcontra
            cases hcontra
          · intro _
            have herase := eraseFirstMatch_eq_filter db.rows name h
            refine ⟨herase, ?_, rfl, rfl⟩
            have hsum := length_filter_not_add
              (fun r => nameMatches r name) db.rows
            have hlen1 : (db.rows.filter (fun r => nameMatches r name)).length
                = 1 := by
              rw [hf]
              rfl
            simp only [herase]
            omega
      | cons r2 rest2 =>
          exfalso
          simp [ciCount, hf] at h

/-- Witness for C7: deleting "Wakanda" from the empty store reports
not-found and changes nothing. -/
theorem delete_country_by_name_spec_witness :
    ∃ db' b, delete_country_by_name ⟨[], 1, none⟩ "Wakanda" = .ok (db', b) ∧
      (b = true ↔ ∃ r ∈ ([] : List Country), nameMatches r "Wakanda" = true) ∧
      (b = false → db' = ⟨[], 1, none⟩) ∧
      (b = true →
        db'.rows = ([] : List Country).filter (fun r => !(nameMatches r "Wakanda")) ∧
        db'.rows.length + 1 = ([] : List Country).length ∧
        db'.nextId = 1 ∧ db'.appMeta = none) :=
  delete_country_by_name_spec ⟨[], 1, none⟩ "Wakanda" (by decide)

/-- C10: a sort argument outside the four recognized values applies no
ordering at all — the listing is identical to the one produced with no
sort argument (filters still applied) — and for any two sort arguments
the result sets are permutations of each other. -/
theorem get_countries_unrecognized_sort (rows : List Country)
    (region currency : Option String) (sort : Option String)
    (h : sort ∉ ([some "gdp_asc", some "gdp_desc", some "population_asc",
        some "population_desc"] : List (Option String))) :
    get_countries_with_filters rows region currency sort
      = get_countries_with_filters rows region currency none ∧
    ∀ sort2, (get_countries_with_filters rows region currency sort).Perm
        (get_countries_with_filters rows region currency sort2) := by
  simp only [List.mem_cons, List.not_mem_nil, or_false, not_or] at h
  obtain ⟨h1, h2, h3, h4⟩ := h
  constructor
  · unfold get_countries_with_filters applySort
    simp [h1, h2, h3, h4]
  · intro sort2
    exact (applySort_perm sort (applyFilters rows region currency)).trans
      (applySort_perm sort2 (applyFilters rows region currency)).symm

/-- Witness for C10: the unrecognized sort value "banana" over a singleton
store. -/
theorem get_countries_unrecognized_sort_witness :
    get_countries_with_filters
        [⟨1, "Nigeria", none, none, 5, none, none, none, none, 0⟩]
        none none (some "banana")
      = get_countries_with_filters
        [⟨1, "Nigeria", none, none, 5, none, none, none, none, 0⟩]
        none none none ∧
    ∀ sort2, (get_countries_with_filters
        [⟨1, "Nigeria", none, none, 5, none, none, none, none, 0⟩]
        none none (some "banana")).Perm
      (get_countries_with_filters
        [⟨1, "Nigeria", none, none, 5, none, none, none, none, 0⟩]
        none none sort2) :=
  get_countries_unrecognized_sort
    [⟨1, "Nigeria", none, none, 5, none, none, none, none, 0⟩]
    none none (some "banana") (by decide)

end CountryApi
